import Mathlib

/-!
Shallow embedding of the candidate scoring and selection pipeline of the
protein-engineering workshop notebooks (Lab 2: AMPLIFY embeddings, cosine
distance, top-K selection; Lab 3: ESMFold structures, CA extraction,
RMSD after rigid superposition, top-K selection).

Numeric model: NumPy float values are modelled as exact rationals; the value
`none` of the type `F` below stands for IEEE NaN, which the notebook code can
produce by mean-pooling over an empty slice or through the `0/0` of a
zero-magnitude vector inside the cosine formula.  `Real.sqrt` appears only in
theorem statements, so every definition stays computable.
-/

/-- Model of a NumPy float scalar: `none` is NaN, `some q` a finite value. -/
abbrev F := Option ℚ

/-- Float multiplication with NaN propagation (infinities never arise on the
modelled code paths). -/
def Fmul : F → F → F
  | some a, some b => some (a * b)
  | _, _ => none

/-- Float addition with NaN propagation. -/
def Fadd : F → F → F
  | some a, some b => some (a + b)
  | _, _ => none

/-- Model of `np.dot` on two 1-D float arrays; the caller checks lengths. -/
def dotF (u v : List F) : F := (List.zipWith Fmul u v).foldr Fadd (some 0)

/-- Exact dot product of two rational vectors. -/
def dotQ (u v : List ℚ) : ℚ := (List.zipWith (· * ·) u v).sum

/-- Model of a NumPy rank-3 array of shape `(1, L, D)`, as returned by the
AMPLIFY endpoint: `data` is the single batch entry, `L` rows of length `D`. -/
structure NpEmb where
  L : Nat
  D : Nat
  data : List (List ℚ)

/-- Shape well-formedness of an `NpEmb`. -/
def NpEmb.WF (e : NpEmb) : Prop :=
  e.data.length = e.L ∧ ∀ r ∈ e.data, r.length = e.D

instance (e : NpEmb) : Decidable e.WF := by
  unfold NpEmb.WF; exact inferInstance

/-- Model of the slice `e[:, 1:-1, :]`: drop the first and the last sequence
position (NumPy's `1:-1` is empty whenever `L ≤ 2`). -/
def sliceRows (e : NpEmb) : List (List ℚ) := (e.data.drop 1).dropLast

/-- Componentwise sum of `rows`, each of length `D`. -/
def colSum (rows : List (List ℚ)) (D : Nat) : List ℚ :=
  rows.foldr (fun r acc => List.zipWith (· + ·) r acc) (List.replicate D 0)

/-- Model of `e[:, 1:-1, :].mean(axis=1).ravel()` as a float vector: when the
slice is empty, NumPy emits a mean-of-empty-slice warning and fills the
`(1, D)` result with NaN; otherwise each column is the exact mean. -/
def pooledF (e : NpEmb) : List F :=
  if (sliceRows e).isEmpty then List.replicate e.D none
  else (colSum (sliceRows e) e.D).map (fun s => some (s / (sliceRows e).length))

/-- The ideal (NaN-free) pooled vector, meaningful when `3 ≤ e.L`. -/
def poolQ (e : NpEmb) : List ℚ :=
  (colSum (sliceRows e) e.D).map (fun s => s / (sliceRows e).length)

/-- Model of `e.ravel()` for the branch without mean pooling. -/
def ravelF (e : NpEmb) : List F := e.data.flatten.map some

/-- The exception scipy raises when the two 1-D arrays have different lengths
(a `ValueError` out of `np.dot`). -/
inductive NpErr where
  | valueError
deriving DecidableEq

/-- Result of `scipy.spatial.distance.cosine`: either NaN, or the finite
float `1 - uv / sqrt (uu * vv)` recorded by its three exact dot products
(so that `Real.sqrt` is not needed inside a computable definition; scipy's
final `np.clip(dist, 0, 2)` is the identity on this value by the
Cauchy-Schwarz inequality). -/
inductive CosResult where
  | nan : CosResult
  | score (uv uu vv : ℚ) : CosResult
deriving DecidableEq

/-- The real number a `CosResult` denotes; NaN denotes no real number. -/
def CosResult.Represents : CosResult → ℝ → Prop
  | .nan, _ => False
  | .score uv uu vv, x => x = 1 - (uv : ℝ) / Real.sqrt ((uu : ℝ) * (vv : ℝ))

/-- Whether the result is a real score rather than NaN. -/
def CosResult.isScore : CosResult → Prop
  | .nan => False
  | .score _ _ _ => True

instance : (r : CosResult) → Decidable r.isScore
  | .nan => isFalse (fun h => h)
  | .score _ _ _ => isTrue trivial

/-- Combination of the three dot products exactly as scipy's formula does:
NaN inputs propagate, and `uu * vv = 0` (a zero-magnitude vector) makes the
division a `0/0`, hence NaN. -/
def cosVal (uv uu vv : F) : CosResult :=
  match uv with
  | none => .nan
  | some a =>
    match uu with
    | none => .nan
    | some b =>
      match vv with
      | none => .nan
      | some c => if b * c = 0 then .nan else .score a b c

/-- Model of `scipy.spatial.distance.cosine(u, v)`: a `ValueError` on a
length mismatch, otherwise `1 - uv / sqrt (uu * vv)` with NaN propagation. -/
def scipyCosine (u v : List F) : Except NpErr CosResult :=
  if u.length = v.length then
    .ok (cosVal (dotF u v) (dotF u u) (dotF v v))
  else .error .valueError

/-- Model of `cosine_distance(embeddings1, embeddings2, mean_pooling)` from
the Lab-2 notebook: optional mean pooling over `[:, 1:-1, :]`, then
`distance.cosine` of the two raveled vectors. -/
def cosine_distance (e1 e2 : NpEmb) (mean_pooling : Bool) : Except NpErr CosResult :=
  if mean_pooling then scipyCosine (pooledF e1) (pooledF e2)
  else scipyCosine (ravelF e1) (ravelF e2)

/-- A 3-D coordinate with rational components. -/
abbrev Pt := Fin 3 → ℚ

/-- Squared Euclidean distance between two points. -/
def sqDist (p q : Pt) : ℚ := ∑ i : Fin 3, (p i - q i) ^ 2

/-- Sum of squared distances between corresponding points of two lists. -/
def ssd (p q : List Pt) : ℚ := (List.zipWith sqDist p q).sum

/-- Mean squared deviation of two equal-length point lists;
`biotite.structure.rmsd` is `Real.sqrt` of this value (the library computes
`sqrt(mean(sum((a - b)**2, axis=-1)))`). -/
def msdQ (p q : List Pt) : ℚ := ssd p q / p.length

/-- A rigid transform: a proper rotation followed by a translation. -/
structure Rigid where
  rot : Matrix (Fin 3) (Fin 3) ℚ
  trans : Pt
  orth : rot.transpose * rot = 1
  det1 : rot.det = 1

/-- Apply a rigid transform to every point of a list. -/
def applyR (t : Rigid) (ps : List Pt) : List Pt :=
  ps.map (fun p => t.rot.mulVec p + t.trans)

/-- The identity rigid transform. -/
def idRigid : Rigid where
  rot := 1
  trans := 0
  orth := by simp
  det1 := by simp

/-- The cross product of two 3-vectors vanishes: the vectors are parallel. -/
def parallelTo (u v : Pt) : Prop :=
  u 1 * v 2 - u 2 * v 1 = 0 ∧ u 2 * v 0 - u 0 * v 2 = 0 ∧ u 0 * v 1 - u 1 * v 0 = 0

instance (u v : Pt) : Decidable (parallelTo u v) := by
  unfold parallelTo; exact inferInstance

/-- A point list is collinear when every triple of its points lies on one
line; lists of at most two points are collinear. -/
def collinearPts (l : List Pt) : Prop :=
  ∀ p ∈ l, ∀ q ∈ l, ∀ s ∈ l, parallelTo (fun i => q i - p i) (fun i => s i - p i)

instance (l : List Pt) : Decidable (collinearPts l) := by
  unfold collinearPts; exact inferInstance

/-- Degenerate superposition input in the sense of the spec: fewer than 3
points, or a collinear point set, on either side. -/
def DegeneratePair (p q : List Pt) : Prop :=
  p.length < 3 ∨ q.length < 3 ∨ collinearPts p ∨ collinearPts q

instance (p q : List Pt) : Decidable (DegeneratePair p q) := by
  unfold DegeneratePair; exact inferInstance

/-- Modelled from the spec: `biotite.structure.superimpose(fixed, mobile)` is
external library code not present in this repository; the spec describes it
as computing the rigid transform (rotation plus translation) that minimizes
the mean-squared distance of the moving set onto the fixed set (Kabsch
least-squares alignment).  At a common length, minimizing the mean squared
distance is minimizing the sum of squared distances. -/
def IsOptimalRigid (t : Rigid) (fixd mobile : List Pt) : Prop :=
  ∀ t' : Rigid, ssd fixd (applyR t mobile) ≤ ssd fixd (applyR t' mobile)

/-- One PDB atom record, reduced to the fields the Lab-3 loop reads. -/
structure Atom where
  name : String
  coord : Pt

/-- Model of `structure[structure.atom_name == 'CA']` followed by taking the
coordinates: alpha-carbon coordinates in file order. -/
def caCoords (s : List Atom) : List Pt :=
  (s.filter (fun a => a.name == "CA")).map Atom.coord

/-- CA extraction and `min_len` truncation from the Lab-3 loop: both CA lists
are cut to their leading prefix of the common minimum length. -/
def prepPoints (ref gen : List Atom) : List Pt × List Pt :=
  ((caCoords ref).take (min (caCoords ref).length (caCoords gen).length),
    (caCoords gen).take (min (caCoords ref).length (caCoords gen).length))

/-- Error class of the structural scorer (spec error taxonomy). -/
inductive ScoreErr where
  | invalidInput
deriving DecidableEq

/-- Outcome of one iteration of the Lab-3 scoring loop: either a failure
producing no partial result, or the squared `rmsd_before`, the squared
`rmsd_after` and the transform (the RMSD values themselves are `Real.sqrt`
of the recorded rationals). -/
inductive ScorerOutcome where
  | fails (e : ScoreErr) : ScorerOutcome
  | done (rmsdBeforeSq rmsdAfterSq : ℚ) (t : Rigid) : ScorerOutcome

/-- Relational model of the Lab-3 loop body for one candidate: extract and
truncate the CA coordinates, compute `rmsd_before`, call `superimpose`
(spec-modelled: it fails on degenerate input and otherwise returns a rigid
transform optimal in the sense of `IsOptimalRigid`), compute `rmsd_after`
against the fitted points. -/
def ScoreRel (ref gen : List Atom) (o : ScorerOutcome) : Prop :=
  (DegeneratePair (prepPoints ref gen).1 (prepPoints ref gen).2 →
      o = .fails .invalidInput) ∧
  (¬ DegeneratePair (prepPoints ref gen).1 (prepPoints ref gen).2 →
      ∃ t : Rigid, IsOptimalRigid t (prepPoints ref gen).1 (prepPoints ref gen).2 ∧
        o = .done (msdQ (prepPoints ref gen).1 (prepPoints ref gen).2)
          (msdQ (prepPoints ref gen).1 (applyR t (prepPoints ref gen).2)) t)

/-- The candidate record of the Lab-3 loop (one entry of `structures`). -/
structure StructCand where
  pid : String
  seqText : String
  description : String
  transform : Option Rigid
  rmsdSq : Option ℚ

/-- How the loop body writes back into the candidate record: a completed
iteration assigns `s['transform']` and `s['rmsd']`; a failure (an exception
out of the scorer) leaves the record untouched. -/
def applyOutcome (c : StructCand) (o : ScorerOutcome) : StructCand :=
  match o with
  | .fails _ => c
  | .done _ a t => { c with transform := some t, rmsdSq := some a }

/-- A candidate row as sorted and selected by both notebooks (`prompt_id`,
`sequence`, `description`, score column); `score = none` models both a
missing score and a NaN score, which pandas treats alike when sorting. -/
structure Cand where
  pid : String
  seqText : String
  description : String
  score : Option ℚ
deriving DecidableEq

/-- Ascending comparison on the score column; only ever used between scored
rows, `getD` merely supplies a default on the unscored. -/
def scoreRel (a b : Cand) : Prop := a.score.getD 0 ≤ b.score.getD 0

instance : DecidableRel scoreRel := fun a b => by
  unfold scoreRel; exact inferInstance

instance : IsTotal Cand scoreRel :=
  ⟨fun a b => le_total (a.score.getD 0) (b.score.getD 0)⟩

instance : IsTrans Cand scoreRel := ⟨fun _ _ _ hab hbc => le_trans hab hbc⟩

/-- Model of `df.sort_values(by=score_column, ascending=True)`: pandas
argsorts the non-NaN rows ascending and appends the NaN/None rows after them
in original order (`na_position='last'`).  The ascending arrangement is
modelled by an insertion sort; the exact tie order of pandas' default
(unstable) quicksort is deliberately not part of this model. -/
def sort_values (l : List Cand) : List Cand :=
  List.insertionSort scoreRel (l.filter (fun c => c.score.isSome)) ++
    l.filter (fun c => !c.score.isSome)

/-- Model of `df.sort_values(...).head(k)`: the top-K selection used by both
notebooks (`head(5)` in Lab 2, `head(3)` in Lab 3). -/
def selectTopK (l : List Cand) (k : Nat) : List Cand := (sort_values l).take k

/-- A FASTA record as handed to `SeqIO.write`. -/
structure SeqRec where
  rid : String
  rseq : String
  rdesc : String

/-- Model of the Lab-2 record construction
`SeqRecord(Seq(row.sequence), id=prompt_id,
description=f'...,distance=...')`; `render` models Python's float
formatting inside the f-string. -/
def mkRecordDist (render : Option ℚ → String) (c : Cand) : SeqRec :=
  ⟨c.pid, c.seqText, c.description ++ ",distance=" ++ render c.score⟩

/-- Model of the Lab-3 record construction, which appends `,rmsd=` and the
score instead. -/
def mkRecordRmsd (render : Option ℚ → String) (c : Cand) : SeqRec :=
  ⟨c.pid, c.seqText, c.description ++ ",rmsd=" ++ render c.score⟩

/-- Step 3.3 of Lab 2 as a state transformer on the stored candidate list:
it builds fresh records from the selection and leaves the store unchanged. -/
def saveTopK (render : Option ℚ → String) (st : List Cand) (k : Nat) :
    List SeqRec × List Cand :=
  ((selectTopK st k).map (mkRecordDist render), st)

/-- Concrete all-zero embedding of shape `(1, 3, 1)`. -/
def zEmbA : NpEmb := ⟨3, 1, [[0], [0], [0]]⟩

/-- Concrete all-zero embedding of shape `(1, 3, 2)`. -/
def zEmbB : NpEmb := ⟨3, 2, [[0, 0], [0, 0], [0, 0]]⟩

/-- Concrete embedding of shape `(1, 3, 2)`; its pooled vector is `[1, 0]`. -/
def embP : NpEmb := ⟨3, 2, [[5, 5], [1, 0], [7, 7]]⟩

/-- Concrete embedding of shape `(1, 3, 2)`; its pooled vector is `[0, 1]`. -/
def embR : NpEmb := ⟨3, 2, [[7, 7], [0, 1], [5, 5]]⟩

/-- Concrete embedding of shape `(1, 2, 2)`: the `1:-1` slice is empty. -/
def embShort : NpEmb := ⟨2, 2, [[1, 2], [3, 4]]⟩

/-- The origin. -/
def pt0 : Pt := fun _ => 0

/-- The first standard basis vector. -/
def ptX : Pt := fun i => if i = 0 then 1 else 0

/-- The second standard basis vector. -/
def ptY : Pt := fun i => if i = 1 then 1 else 0

/-- A concrete non-collinear triangle. -/
def triA : List Pt := [pt0, ptX, ptY]

/-- A concrete structure with no alpha-carbon atom. -/
def noCaAtoms : List Atom := [⟨"N", pt0⟩, ⟨"O", ptX⟩]

/-- A concrete structure with one alpha-carbon atom. -/
def someCaAtoms : List Atom := [⟨"CA", pt0⟩]

/-- Concrete scored candidates and an unscored one. -/
def candA : Cand := ⟨"a", "MA", "da", some 1⟩

/-- Second scored candidate. -/
def candB : Cand := ⟨"b", "MB", "db", some 2⟩

/-- Third scored candidate, lowest score. -/
def candC : Cand := ⟨"c", "MC", "dc", some 0⟩

/-- An unscored candidate. -/
def candU : Cand := ⟨"u", "MU", "du", none⟩

/-- A concrete structural candidate record with empty optional fields. -/
def structCandA : StructCand := ⟨"s", "MS", "ds", none, none⟩

/-! ### Helper lemmas about the cosine pipeline -/

theorem Fadd_none_right (x : F) : Fadd x none = none := by
  cases x <;> rfl

theorem Fmul_none_left (y : F) : Fmul none y = none := by
  cases y <;> rfl

theorem Fmul_none_right (x : F) : Fmul x none = none := by
  cases x <;> rfl

theorem dotF_map_some (u : List ℚ) :
    ∀ v : List ℚ, dotF (u.map some) (v.map some) = some (dotQ u v) := by
  induction u with
  | nil => intro v; simp [dotF, dotQ]
  | cons a u ih =>
    intro v
    cases v with
    | nil => simp [dotF, dotQ]
    | cons b v =>
      have h := ih v
      simp only [dotF, dotQ, List.map_cons, List.zipWith_cons_cons, List.foldr_cons,
        List.sum_cons] at h ⊢
      rw [h]
      rfl

theorem dotF_none_of_mem_left (u : List F) :
    ∀ v : List F, u.length ≤ v.length → none ∈ u → dotF u v = none := by
  induction u with
  | nil => intro v _ h; cases h
  | cons a u ih =>
    intro v hlen hmem
    cases v with
    | nil => simp at hlen
    | cons b v =>
      simp only [dotF, List.zipWith_cons_cons, List.foldr_cons]
      rcases List.mem_cons.mp hmem with h | h
      · rw [← h, Fmul_none_left]; rfl
      · have := ih v (by simpa using hlen) h
        simp only [dotF] at this
        rw [this, Fadd_none_right]

theorem dotF_none_of_mem_right (u : List F) :
    ∀ v : List F, v.length ≤ u.length → none ∈ v → dotF u v = none := by
  induction u with
  | nil => intro v hlen hmem; cases v <;> simp_all
  | cons a u ih =>
    intro v hlen hmem
    cases v with
    | nil => cases hmem
    | cons b v =>
      simp only [dotF, List.zipWith_cons_cons, List.foldr_cons]
      rcases List.mem_cons.mp hmem with h | h
      · rw [← h, Fmul_none_right]; rfl
      · have := ih v (by simpa using hlen) h
        simp only [dotF] at this
        rw [this, Fadd_none_right]

theorem dotQ_self_nonneg (u : List ℚ) : 0 ≤ dotQ u u := by
  induction u with
  | nil => simp [dotQ]
  | cons a u ih =>
    simp only [dotQ, List.zipWith_cons_cons, List.sum_cons] at ih ⊢
    exact add_nonneg (mul_self_nonneg a) ih

theorem sliceRows_length (e : NpEmb) (h : e.WF) :
    (sliceRows e).length = e.L - 2 := by
  simp [sliceRows, h.1, Nat.sub_sub]

theorem sliceRows_subset (e : NpEmb) : ∀ r ∈ sliceRows e, r ∈ e.data := by
  intro r hr
  have h1 : r ∈ e.data.drop 1 := List.dropLast_subset _ hr
  exact List.drop_subset 1 e.data h1

theorem colSum_length (D : Nat) :
    ∀ rows : List (List ℚ), (∀ r ∈ rows, r.length = D) →
      (colSum rows D).length = D := by
  intro rows h
  induction rows with
  | nil => simp [colSum]
  | cons r rows ih =>
    have hr : r.length = D := h r (List.mem_cons_self r rows)
    have := ih (fun s hs => h s (List.mem_cons_of_mem r hs))
    simp only [colSum, List.foldr_cons] at this ⊢
    simp [List.length_zipWith, hr, this]

theorem poolQ_length (e : NpEmb) (h : e.WF) : (poolQ e).length = e.D := by
  simp only [poolQ, List.length_map]
  exact colSum_length e.D (sliceRows e) (fun r hr => h.2 r (sliceRows_subset e r hr))

theorem pooledF_of_le_two (e : NpEmb) (h : e.WF) (hL : e.L ≤ 2) :
    pooledF e = List.replicate e.D none := by
  have : (sliceRows e).length = 0 := by
    rw [sliceRows_length e h]; omega
  rw [pooledF, if_pos]
  rw [List.isEmpty_iff_length_eq_zero, this]

theorem pooledF_of_three_le (e : NpEmb) (h : e.WF) (hL : 3 ≤ e.L) :
    pooledF e = (poolQ e).map some := by
  have hlen : (sliceRows e).length = e.L - 2 := sliceRows_length e h
  have h0 : (sliceRows e).length ≠ 0 := by omega
  have hne : (sliceRows e).isEmpty = false := by
    cases hE : (sliceRows e).isEmpty
    · rfl
    · exact absurd (by rwa [List.isEmpty_iff_length_eq_zero] at hE) h0
  rw [pooledF, if_neg (by simp [hne]), poolQ, List.map_map]
  rfl

theorem pooledF_length (e : NpEmb) (h : e.WF) : (pooledF e).length = e.D := by
  rcases le_or_lt e.L 2 with hL | hL
  · rw [pooledF_of_le_two e h hL, List.length_replicate]
  · rw [pooledF_of_three_le e h hL, List.length_map, poolQ_length e h]

theorem cosine_distance_len_mismatch (e1 e2 : NpEmb) (h1 : e1.WF) (h2 : e2.WF)
    (hD : e1.D ≠ e2.D) :
    cosine_distance e1 e2 true = Except.error NpErr.valueError := by
  have hl1 := pooledF_length e1 h1
  have hl2 := pooledF_length e2 h2
  rw [cosine_distance, if_pos rfl, scipyCosine, if_neg]
  rw [hl1, hl2]
  exact hD

theorem cosine_distance_pooled_score (e1 e2 : NpEmb) (h1 : e1.WF) (h2 : e2.WF)
    (hD : e1.D = e2.D) (hL1 : 3 ≤ e1.L) (hL2 : 3 ≤ e2.L)
    (hz : dotQ (poolQ e1) (poolQ e1) * dotQ (poolQ e2) (poolQ e2) ≠ 0) :
    cosine_distance e1 e2 true =
      Except.ok (CosResult.score (dotQ (poolQ e1) (poolQ e2))
        (dotQ (poolQ e1) (poolQ e1)) (dotQ (poolQ e2) (poolQ e2))) := by
  have hp1 := pooledF_of_three_le e1 h1 hL1
  have hp2 := pooledF_of_three_le e2 h2 hL2
  have hlen : (pooledF e1).length = (pooledF e2).length := by
    rw [pooledF_length e1 h1, pooledF_length e2 h2, hD]
  rw [cosine_distance, if_pos rfl, scipyCosine, if_pos hlen, hp1, hp2,
    dotF_map_some, dotF_map_some, dotF_map_some, cosVal, if_neg hz]

theorem cosine_distance_pooled_nan (e1 e2 : NpEmb) (h1 : e1.WF) (h2 : e2.WF)
    (hD : e1.D = e2.D) (hL1 : 3 ≤ e1.L) (hL2 : 3 ≤ e2.L)
    (hz : dotQ (poolQ e1) (poolQ e1) * dotQ (poolQ e2) (poolQ e2) = 0) :
    cosine_distance e1 e2 true = Except.ok CosResult.nan := by
  have hp1 := pooledF_of_three_le e1 h1 hL1
  have hp2 := pooledF_of_three_le e2 h2 hL2
  have hlen : (pooledF e1).length = (pooledF e2).length := by
    rw [pooledF_length e1 h1, pooledF_length e2 h2, hD]
  rw [cosine_distance, if_pos rfl, scipyCosine, if_pos hlen, hp1, hp2,
    dotF_map_some, dotF_map_some, dotF_map_some, cosVal, if_pos hz]

theorem cosine_distance_short_left (e1 e2 : NpEmb) (h1 : e1.WF) (h2 : e2.WF)
    (hD : e1.D = e2.D) (hL : e1.L ≤ 2) :
    cosine_distance e1 e2 true = Except.ok CosResult.nan := by
  have hp1 := pooledF_of_le_two e1 h1 hL
  have hl2 : (pooledF e2).length = e1.D := by rw [pooledF_length e2 h2, hD]
  have hlen : (pooledF e1).length = (pooledF e2).length := by
    rw [pooledF_length e1 h1, hl2]
  rw [cosine_distance, if_pos rfl, scipyCosine, if_pos hlen]
  rcases Nat.eq_zero_or_pos e1.D with hz | hpos
  · have he1 : pooledF e1 = [] := by rw [hp1, hz]; rfl
    have he2 : pooledF e2 = [] := by
      rw [← List.length_eq_zero]
      rw [hl2, hz]
    rw [he1, he2]
    simp [dotF, cosVal]
  · have hmem : none ∈ pooledF e1 := by
      rw [hp1]
      exact List.mem_replicate.mpr ⟨by omega, rfl⟩
    have huv : dotF (pooledF e1) (pooledF e2) = none :=
      dotF_none_of_mem_left _ _ (le_of_eq hlen) hmem
    rw [huv, cosVal]

theorem cosine_distance_short_right (e1 e2 : NpEmb) (h1 : e1.WF) (h2 : e2.WF)
    (hD : e1.D = e2.D) (hL : e2.L ≤ 2) :
    cosine_distance e1 e2 true = Except.ok CosResult.nan := by
  have hp2 := pooledF_of_le_two e2 h2 hL
  have hl1 : (pooledF e1).length = e2.D := by rw [pooledF_length e1 h1, hD]
  have hlen : (pooledF e1).length = (pooledF e2).length := by
    rw [pooledF_length e2 h2, hl1]
  rw [cosine_distance, if_pos rfl, scipyCosine, if_pos hlen]
  rcases Nat.eq_zero_or_pos e2.D with hz | hpos
  · have he2 : pooledF e2 = [] := by rw [hp2, hz]; rfl
    have he1 : pooledF e1 = [] := by
      rw [← List.length_eq_zero]
      rw [hl1, hz]
    rw [he1, he2]
    simp [dotF, cosVal]
  · have hmem : none ∈ pooledF e2 := by
      rw [hp2]
      exact List.mem_replicate.mpr ⟨by omega, rfl⟩
    have huv : dotF (pooledF e1) (pooledF e2) = none :=
      dotF_none_of_mem_right _ _ (ge_of_eq hlen) hmem
    rw [huv, cosVal]

/-! ### Helper lemmas about the structural pipeline -/

theorem sqDist_nonneg (p q : Pt) : 0 ≤ sqDist p q :=
  Finset.sum_nonneg fun _ _ => sq_nonneg _

theorem sqDist_self (p : Pt) : sqDist p p = 0 := by
  simp [sqDist]

theorem ssd_nonneg (p : List Pt) : ∀ q : List Pt, 0 ≤ ssd p q := by
  induction p with
  | nil => intro q; simp [ssd]
  | cons a p ih =>
    intro q
    cases q with
    | nil => simp [ssd]
    | cons b q =>
      simp only [ssd, List.zipWith_cons_cons, List.sum_cons]
      have := ih q
      simp only [ssd] at this
      exact add_nonneg (sqDist_nonneg a b) this

theorem ssd_self (p : List Pt) : ssd p p = 0 := by
  induction p with
  | nil => simp [ssd]
  | cons a p ih =>
    simp only [ssd, List.zipWith_cons_cons, List.sum_cons] at ih ⊢
    rw [sqDist_self, ih, add_zero]

theorem applyR_id (ps : List Pt) : applyR idRigid ps = ps := by
  simp [applyR, idRigid]

theorem optimal_id_self (p : List Pt) : IsOptimalRigid idRigid p p := by
  intro t'
  rw [applyR_id, ssd_self]
  exact ssd_nonneg _ _

/-! ### Helper lemmas about the selection pipeline -/

theorem scored_filter_eq_self (l : List Cand) (h : ∀ c ∈ l, c.score ≠ none) :
    l.filter (fun c => c.score.isSome) = l := by
  rw [List.filter_eq_self]
  intro c hc
  rw [Option.isSome_iff_ne_none]
  exact h c hc

theorem unscored_filter_eq_nil (l : List Cand) (h : ∀ c ∈ l, c.score ≠ none) :
    l.filter (fun c => !c.score.isSome) = [] := by
  rw [List.filter_eq_nil_iff]
  intro c hc
  simp [Option.isSome_iff_ne_none, h c hc]

theorem triA_not_collinear : ¬ collinearPts triA := by
  intro h
  have h1 := h pt0 (by simp [triA]) ptX (by simp [triA]) ptY (by simp [triA])
  simp [parallelTo, pt0, ptX, ptY, Fin.ext_iff] at h1

theorem embP_pool_ne : dotQ (poolQ embP) (poolQ embP) ≠ 0 := by
  have hp : poolQ embP = [1, 0] := by simp [poolQ, colSum, sliceRows, embP]
  rw [hp]
  simp [dotQ]

theorem embR_pool_ne : dotQ (poolQ embR) (poolQ embR) ≠ 0 := by
  have hp : poolQ embR = [0, 1] := by simp [poolQ, colSum, sliceRows, embR]
  rw [hp]
  simp [dotQ]

/-! ### Claim theorems -/

/-- C2: for every pair of equal-length, non-collinear point lists, the RMSD
against the candidate set transformed by an optimal rigid superposition
(`rmsd_after`) is at most the RMSD against the untransformed candidate set
(`rmsd_before`); RMSD is `Real.sqrt` of the mean squared deviation `msdQ`. -/
theorem rmsd_after_le_rmsd_before (r g : List Pt) (t : Rigid)
    (hlen : r.length = g.length) (hc1 : ¬ collinearPts r) (hc2 : ¬ collinearPts g)
    (hopt : IsOptimalRigid t r g) :
    Real.sqrt ((msdQ r (applyR t g) : ℚ) : ℝ) ≤ Real.sqrt ((msdQ r g : ℚ) : ℝ) := by
  apply Real.sqrt_le_sqrt
  have h := hopt idRigid
  rw [applyR_id] at h
  rw [Rat.cast_le]
  rw [msdQ, msdQ, div_eq_mul_inv, div_eq_mul_inv]
  refine mul_le_mul_of_nonneg_right h ?_
  rw [inv_nonneg]
  exact Nat.cast_nonneg _

/-- Witness for C2 at a concrete non-collinear triangle, with the identity
transform (optimal for a point set against itself). -/
theorem rmsd_after_le_rmsd_before_witness :
    triA.length = triA.length ∧ (¬ collinearPts triA) ∧
      IsOptimalRigid idRigid triA triA ∧
      Real.sqrt ((msdQ triA (applyR idRigid triA) : ℚ) : ℝ) ≤
        Real.sqrt ((msdQ triA triA : ℚ) : ℝ) :=
  ⟨rfl, triA_not_collinear, optimal_id_self triA,
    rmsd_after_le_rmsd_before triA triA idRigid rfl triA_not_collinear
      triA_not_collinear (optimal_id_self triA)⟩

/-- C4: the structural scorer extracts the atoms named "CA" in file order and
truncates both CA coordinate lists to the leading prefix of length
`min(len(ref_ca), len(cand_ca))`, so the pair handed to RMSD and
superposition consists of equal-length leading prefixes of the two CA
subsets. -/
theorem ca_min_truncation (ref gen : List Atom) :
    caCoords ref = (ref.filter (fun a => a.name == "CA")).map Atom.coord ∧
      (prepPoints ref gen).1.length =
        min (caCoords ref).length (caCoords gen).length ∧
      (prepPoints ref gen).2.length =
        min (caCoords ref).length (caCoords gen).length ∧
      (prepPoints ref gen).1 ++
          (caCoords ref).drop (min (caCoords ref).length (caCoords gen).length) =
        caCoords ref ∧
      (prepPoints ref gen).2 ++
          (caCoords gen).drop (min (caCoords ref).length (caCoords gen).length) =
        caCoords gen := by
  refine ⟨rfl, ?_, ?_, List.take_append_drop _ _, List.take_append_drop _ _⟩
  · simp only [prepPoints, List.length_take]
    omega
  · simp only [prepPoints, List.length_take]
    omega

/-- C5: when either structure has no atom named "CA", the (spec-modelled)
scorer fails with an InvalidInput error, produces neither `rmsd_before` nor
`rmsd_after` nor a transform, and the candidate's stored fields stay
unchanged. -/
theorem empty_ca_invalid_input (ref gen : List Atom) (c : StructCand)
    (o : ScorerOutcome) (h : ScoreRel ref gen o)
    (he : caCoords ref = [] ∨ caCoords gen = []) :
    o = ScorerOutcome.fails ScoreErr.invalidInput ∧ applyOutcome c o = c := by
  have hdeg : DegeneratePair (prepPoints ref gen).1 (prepPoints ref gen).2 := by
    rcases he with he | he
    · left
      simp [prepPoints, he]
    · right; left
      simp [prepPoints, he]
  have ho := h.1 hdeg
  refine ⟨ho, ?_⟩
  rw [ho]
  rfl

/-- Witness for C5 at a concrete structure without CA atoms. -/
theorem empty_ca_invalid_input_witness :
    ScoreRel noCaAtoms someCaAtoms (ScorerOutcome.fails ScoreErr.invalidInput) ∧
      caCoords noCaAtoms = [] ∧
      (ScorerOutcome.fails ScoreErr.invalidInput =
          ScorerOutcome.fails ScoreErr.invalidInput ∧
        applyOutcome structCandA (ScorerOutcome.fails ScoreErr.invalidInput) =
          structCandA) :=
  ⟨⟨fun _ => rfl, fun hnd => absurd (by decide) hnd⟩, by decide,
    empty_ca_invalid_input noCaAtoms someCaAtoms structCandA _
      ⟨fun _ => rfl, fun hnd => absurd (by decide) hnd⟩ (Or.inl (by decide))⟩

/-- C6: on a fully scored candidate list, top-K selection takes the first `k`
entries of an ascending-by-score rearrangement of the input, and with
`k ≥ N` it returns all `N` candidates in ascending score order, without
error. -/
theorem select_top_k_ascending (l : List Cand) (k : Nat)
    (h : ∀ c ∈ l, c.score ≠ none) :
    (∃ l', l.Perm l' ∧ l'.Sorted scoreRel ∧ selectTopK l k = l'.take k) ∧
      (l.length ≤ k →
        (selectTopK l k).Perm l ∧ (selectTopK l k).Sorted scoreRel) := by
  have hs : sort_values l = List.insertionSort scoreRel l := by
    rw [sort_values, scored_filter_eq_self l h, unscored_filter_eq_nil l h,
      List.append_nil]
  constructor
  · exact ⟨List.insertionSort scoreRel l, (List.perm_insertionSort _ _).symm,
      List.sorted_insertionSort _ _, by rw [selectTopK, hs]⟩
  · intro hk
    have hlen : (List.insertionSort scoreRel l).length = l.length :=
      List.length_insertionSort _ _
    have heq : selectTopK l k = List.insertionSort scoreRel l := by
      rw [selectTopK, hs, List.take_of_length_le (by rw [hlen]; exact hk)]
    rw [heq]
    exact ⟨List.perm_insertionSort _ _, List.sorted_insertionSort _ _⟩

/-- Witness for C6 on three concrete scored candidates with k = 5 ≥ 3. -/
theorem select_top_k_ascending_witness :
    (∀ c ∈ [candA, candB, candC], c.score ≠ none) ∧
      ((∃ l', [candA, candB, candC].Perm l' ∧ l'.Sorted scoreRel ∧
          selectTopK [candA, candB, candC] 5 = l'.take 5) ∧
        ([candA, candB, candC].length ≤ 5 →
          (selectTopK [candA, candB, candC] 5).Perm [candA, candB, candC] ∧
            (selectTopK [candA, candB, candC] 5).Sorted scoreRel)) :=
  ⟨by decide, select_top_k_ascending [candA, candB, candC] 5 (by decide)⟩

/-- C8 counterexample: with one scored and one unscored candidate and k = 2,
the unscored candidate appears in the returned top-K sequence — it is
neither excluded nor does the selection fail. -/
theorem unscored_in_top_k_cex :
    candU ∈ selectTopK [candA, candU] 2 ∧ candU.score = none := by
  constructor
  · decide
  · rfl

/-- C8 amended: unscored (or NaN-scored) candidates are sorted after all
scored candidates rather than excluded, so whenever `k` is at most the
number of scored candidates, no unscored candidate appears in the top-K
output; no warning is issued and no error is raised. -/
theorem unscored_only_beyond_scored (l : List Cand) (k : Nat)
    (h : k ≤ (l.filter (fun c => c.score.isSome)).length) :
    ∀ c ∈ selectTopK l k, c.score ≠ none := by
  intro c hc
  rw [selectTopK, sort_values,
    List.take_append_of_le_length (by rw [List.length_insertionSort]; exact h)]
      at hc
  have h1 : c ∈ List.insertionSort scoreRel (l.filter (fun x => x.score.isSome)) :=
    List.mem_of_mem_take hc
  have h2 : c ∈ l.filter (fun x => x.score.isSome) :=
    (List.perm_insertionSort _ _).subset h1
  have h3 := List.of_mem_filter h2
  rw [Option.isSome_iff_ne_none] at h3
  exact h3

/-- Witness for the amended C8 with one scored, one unscored candidate and
k = 1. -/
theorem unscored_only_beyond_scored_witness :
    1 ≤ ([candA, candU].filter (fun c => c.score.isSome)).length ∧
      ∀ c ∈ selectTopK [candA, candU] 1, c.score ≠ none :=
  ⟨by decide, unscored_only_beyond_scored [candA, candU] 1 (by decide)⟩

/-- C10: persisted records keep the candidate's identifier and residue
sequence unchanged; the record's annotation is the candidate's description
with ",distance=score" (embedding pipeline) or ",rmsd=score" (structure
pipeline) appended; and the stored candidate list is not mutated by the
persistence step. -/
theorem persisted_record_fields (render : Option ℚ → String) (st : List Cand)
    (k : Nat) (c : Cand) :
    (saveTopK render st k).2 = st ∧
      (saveTopK render st k).1.map SeqRec.rid = (selectTopK st k).map Cand.pid ∧
      (saveTopK render st k).1.map SeqRec.rseq =
        (selectTopK st k).map Cand.seqText ∧
      (mkRecordDist render c).rid = c.pid ∧
      (mkRecordDist render c).rseq = c.seqText ∧
      (mkRecordDist render c).rdesc =
        c.description ++ ",distance=" ++ render c.score ∧
      (mkRecordRmsd render c).rid = c.pid ∧
      (mkRecordRmsd render c).rseq = c.seqText ∧
      (mkRecordRmsd render c).rdesc =
        c.description ++ ",rmsd=" ++ render c.score := by
  refine ⟨rfl, ?_, ?_, rfl, rfl, rfl, rfl, rfl, rfl⟩
  · simp [saveTopK, mkRecordDist, List.map_map, Function.comp_def]
  · simp [saveTopK, mkRecordDist, List.map_map, Function.comp_def]

/-- C1 counterexample: the all-zero embedding of shape (1, 3, 1) satisfies
L ≥ 3, yet the scorer returns NaN (`0/0` from a zero-magnitude pooled
vector) rather than 1 minus a cosine similarity, so no single real score is
produced for this input pair. -/
theorem cosine_zero_embedding_nan_cex :
    cosine_distance zEmbA zEmbA true = Except.ok CosResult.nan ∧
      ¬ CosResult.isScore CosResult.nan := by
  constructor
  · apply cosine_distance_pooled_nan zEmbA zEmbA (by decide) (by decide) rfl
      (by decide) (by decide)
    have hp : poolQ zEmbA = [0] := by simp [poolQ, colSum, sliceRows, zEmbA]
    rw [hp]
    simp [dotQ]
  · exact fun h => h

/-- C1 amended: for rank-3 embeddings shaped (1, L, D) with L ≥ 3 and a
common hidden dimension D, provided both mean-pooled vectors have nonzero
magnitude, the scorer pools each embedding (excluding the first and last
positions) to a length-D vector and returns 1 minus the cosine similarity of
the two pooled vectors, a single real score; embeddings of different
sequence lengths are thereby comparable. -/
theorem cosine_mean_pooling_score (e1 e2 : NpEmb) (h1 : e1.WF) (h2 : e2.WF)
    (hD : e1.D = e2.D) (hL1 : 3 ≤ e1.L) (hL2 : 3 ≤ e2.L)
    (hz1 : dotQ (poolQ e1) (poolQ e1) ≠ 0)
    (hz2 : dotQ (poolQ e2) (poolQ e2) ≠ 0) :
    (poolQ e1).length = e1.D ∧ (poolQ e2).length = e2.D ∧
      cosine_distance e1 e2 true =
        Except.ok (CosResult.score (dotQ (poolQ e1) (poolQ e2))
          (dotQ (poolQ e1) (poolQ e1)) (dotQ (poolQ e2) (poolQ e2))) ∧
      CosResult.Represents
        (CosResult.score (dotQ (poolQ e1) (poolQ e2))
          (dotQ (poolQ e1) (poolQ e1)) (dotQ (poolQ e2) (poolQ e2)))
        (1 - (dotQ (poolQ e1) (poolQ e2) : ℝ) /
          (Real.sqrt ((dotQ (poolQ e1) (poolQ e1) : ℚ) : ℝ) *
            Real.sqrt ((dotQ (poolQ e2) (poolQ e2) : ℚ) : ℝ))) := by
  refine ⟨poolQ_length e1 h1, poolQ_length e2 h2,
    cosine_distance_pooled_score e1 e2 h1 h2 hD hL1 hL2 (mul_ne_zero hz1 hz2),
    ?_⟩
  simp only [CosResult.Represents]
  rw [Real.sqrt_mul (by exact_mod_cast dotQ_self_nonneg (poolQ e1))]

/-- Witness for the amended C1 on two concrete well-formed embeddings with
nonzero pooled vectors. -/
theorem cosine_mean_pooling_score_witness :
    embP.WF ∧ embR.WF ∧ embP.D = embR.D ∧ 3 ≤ embP.L ∧ 3 ≤ embR.L ∧
      dotQ (poolQ embP) (poolQ embP) ≠ 0 ∧
      dotQ (poolQ embR) (poolQ embR) ≠ 0 ∧
      ((poolQ embP).length = embP.D ∧ (poolQ embR).length = embR.D ∧
        cosine_distance embP embR true =
          Except.ok (CosResult.score (dotQ (poolQ embP) (poolQ embR))
            (dotQ (poolQ embP) (poolQ embP)) (dotQ (poolQ embR) (poolQ embR))) ∧
        CosResult.Represents
          (CosResult.score (dotQ (poolQ embP) (poolQ embR))
            (dotQ (poolQ embP) (poolQ embP)) (dotQ (poolQ embR) (poolQ embR)))
          (1 - (dotQ (poolQ embP) (poolQ embR) : ℝ) /
            (Real.sqrt ((dotQ (poolQ embP) (poolQ embP) : ℚ) : ℝ) *
              Real.sqrt ((dotQ (poolQ embR) (poolQ embR) : ℚ) : ℝ)))) :=
  ⟨by decide, by decide, rfl, by decide, by decide, embP_pool_ne, embR_pool_ne,
    cosine_mean_pooling_score embP embR (by decide) (by decide) rfl (by decide)
      (by decide) embP_pool_ne embR_pool_ne⟩

/-- C3 counterexample: on the all-zero embedding of shape (1, 3, 2), both
pooled vectors have zero magnitude, yet the scorer does not fail with an
error: it returns NaN. -/
theorem cosine_zero_magnitude_no_error_cex :
    cosine_distance zEmbB zEmbB true = Except.ok CosResult.nan ∧
      cosine_distance zEmbB zEmbB true ≠ Except.error NpErr.valueError := by
  have h : cosine_distance zEmbB zEmbB true = Except.ok CosResult.nan := by
    apply cosine_distance_pooled_nan zEmbB zEmbB (by decide) (by decide) rfl
      (by decide) (by decide)
    have hp : poolQ zEmbB = [0, 0] := by simp [poolQ, colSum, sliceRows, zEmbB]
    rw [hp]
    simp [dotQ]
  refine ⟨h, ?_⟩
  rw [h]
  exact fun hcontra => Except.noConfusion hcontra

/-- C3 amended: with mean pooling on well-formed embeddings with L ≥ 3, the
scorer raises a ValueError exactly when the flattened lengths differ (that
is, when the hidden dimensions differ); when either pooled vector has zero
magnitude it returns NaN without raising any error; in the remaining cases
it returns the cosine-distance score without error. -/
theorem cosine_error_cases (e1 e2 : NpEmb) (h1 : e1.WF) (h2 : e2.WF)
    (hL1 : 3 ≤ e1.L) (hL2 : 3 ≤ e2.L) :
    (e1.D ≠ e2.D →
        cosine_distance e1 e2 true = Except.error NpErr.valueError) ∧
      (e1.D = e2.D →
        dotQ (poolQ e1) (poolQ e1) * dotQ (poolQ e2) (poolQ e2) = 0 →
        cosine_distance e1 e2 true = Except.ok CosResult.nan) ∧
      (e1.D = e2.D →
        dotQ (poolQ e1) (poolQ e1) * dotQ (poolQ e2) (poolQ e2) ≠ 0 →
        cosine_distance e1 e2 true =
          Except.ok (CosResult.score (dotQ (poolQ e1) (poolQ e2))
            (dotQ (poolQ e1) (poolQ e1)) (dotQ (poolQ e2) (poolQ e2)))) :=
  ⟨fun hD => cosine_distance_len_mismatch e1 e2 h1 h2 hD,
    fun hD hz => cosine_distance_pooled_nan e1 e2 h1 h2 hD hL1 hL2 hz,
    fun hD hz => cosine_distance_pooled_score e1 e2 h1 h2 hD hL1 hL2 hz⟩

/-- Witness for the amended C3 on two concrete well-formed embeddings. -/
theorem cosine_error_cases_witness :
    embP.WF ∧ embR.WF ∧ 3 ≤ embP.L ∧ 3 ≤ embR.L ∧
      ((embP.D ≠ embR.D →
          cosine_distance embP embR true = Except.error NpErr.valueError) ∧
        (embP.D = embR.D →
          dotQ (poolQ embP) (poolQ embP) * dotQ (poolQ embR) (poolQ embR) = 0 →
          cosine_distance embP embR true = Except.ok CosResult.nan) ∧
        (embP.D = embR.D →
          dotQ (poolQ embP) (poolQ embP) * dotQ (poolQ embR) (poolQ embR) ≠ 0 →
          cosine_distance embP embR true =
            Except.ok (CosResult.score (dotQ (poolQ embP) (poolQ embR))
              (dotQ (poolQ embP) (poolQ embP))
              (dotQ (poolQ embR) (poolQ embR))))) :=
  ⟨by decide, by decide, by decide, by decide,
    cosine_error_cases embP embR (by decide) (by decide) (by decide)
      (by decide)⟩

/-- C9: when an embedding's sequence axis has length at most 2, the `1:-1`
slice is empty, so the mean-pooled vector is a NaN-filled vector rather than
a well-defined mean; the returned value is NaN — not a real number in
[0, 2] — and no error is raised at the public interface, whichever argument
position the short embedding occupies. -/
theorem short_sequence_nan (e1 e2 : NpEmb) (h1 : e1.WF) (h2 : e2.WF)
    (hD : e1.D = e2.D) (hL : e1.L ≤ 2) :
    pooledF e1 = List.replicate e1.D none ∧
      cosine_distance e1 e2 true = Except.ok CosResult.nan ∧
      cosine_distance e2 e1 true = Except.ok CosResult.nan ∧
      ∀ x : ℝ, ¬ CosResult.Represents CosResult.nan x :=
  ⟨pooledF_of_le_two e1 h1 hL,
    cosine_distance_short_left e1 e2 h1 h2 hD hL,
    cosine_distance_short_right e2 e1 h2 h1 hD.symm hL,
    fun _ h => h⟩

/-- Witness for C9 on a concrete (1, 2, 2) embedding against a concrete
(1, 3, 2) embedding. -/
theorem short_sequence_nan_witness :
    embShort.WF ∧ embP.WF ∧ embShort.D = embP.D ∧ embShort.L ≤ 2 ∧
      (pooledF embShort = List.replicate embShort.D none ∧
        cosine_distance embShort embP true = Except.ok CosResult.nan ∧
        cosine_distance embP embShort true = Except.ok CosResult.nan ∧
        ∀ x : ℝ, ¬ CosResult.Represents CosResult.nan x) :=
  ⟨by decide, by decide, rfl, by decide,
    short_sequence_nan embShort embP (by decide) (by decide) rfl (by decide)⟩
